import Mathlib

/-!
# Verification of the ETL data-preparation pipeline

A shallow embedding of the three-stage ETL pipeline
(`scripts/extract_data.py`, `scripts/transform_data.py`, `scripts/load_data.py`)
and proofs about its cleaning, aggregation, validation and load logic.

Conventions of the embedding:
* pandas floating-point numbers are modelled as exact rationals (`ℚ`);
* missing values (`NaN` / `None`) are modelled with `Option` (typed rows)
  or an explicit `Value.null` constructor (untyped frames);
* a pandas `DataFrame` with the fixed raw-record schema is modelled as a
  `List RawRow`; frames of unknown shape (the validators receive those)
  are modelled as `DF`, a column list plus rows of cells;
* exceptions are modelled with `Except` / `Option`;
* the SQLite store is modelled as a map from table name to table contents.
-/

namespace ETL

/-! ## Numeric helpers: sorting, linear-interpolated quantiles, rounding -/

/-- Insert a rational into a sorted list (ascending). -/
def insertSorted (x : ℚ) : List ℚ → List ℚ
  | [] => [x]
  | y :: ys => if x ≤ y then x :: y :: ys else y :: insertSorted x ys

/-- Ascending sort, as used by `Series.quantile` on the column values. -/
def sortRats (l : List ℚ) : List ℚ := l.foldr insertSorted []

/-- `Series.quantile(q)` with the default linear interpolation:
position `h = q*(n-1)` in the ascending sorted values, linearly
interpolating between the neighbouring order statistics.
Returns `none` on an empty series (pandas returns `NaN`). -/
def quantileLinear (l : List ℚ) (q : ℚ) : Option ℚ :=
  let s := sortRats l
  if s.isEmpty then none
  else
    let h : ℚ := q * (s.length - 1)
    let i : ℕ := (⌊h⌋).toNat
    let frac : ℚ := h - ⌊h⌋
    match s.get? i, s.get? (i + 1) with
    | some a, some b => some (a + frac * (b - a))
    | some a, none => some a
    | _, _ => none

/-- Round to the nearest integer, ties to even (numpy/pandas rounding). -/
def roundHalfEven (x : ℚ) : ℤ :=
  let f := ⌊x⌋
  let frac := x - f
  if frac < 1/2 then f
  else if 1/2 < frac then f + 1
  else if f % 2 = 0 then f else f + 1

/-- `Series.round(d)`: round to `d` decimal places, ties to even. -/
def roundTo (d : ℕ) (x : ℚ) : ℚ := (roundHalfEven (x * 10 ^ d) : ℚ) / 10 ^ d

/-! ## Text normalization (`str.strip().str.title()`) -/

/-- `str.title()` on a character list: an alphabetic character is
uppercased when the previous character is not alphabetic, lowercased
otherwise (ASCII fragment of the Python behaviour). -/
def titleAux : Bool → List Char → List Char
  | _, [] => []
  | prevAlpha, c :: cs =>
    let c2 := if c.isAlpha then (if prevAlpha then c.toLower else c.toUpper) else c
    c2 :: titleAux c.isAlpha cs

/-- An ASCII whitespace character (the fragment `str.strip` removes). -/
def isSpaceChar (c : Char) : Bool :=
  c = ' ' || c = '\t' || c = '\n' || c = '\r'

/-- `str.strip()` on a character list. -/
def trimChars (cs : List Char) : List Char :=
  ((cs.dropWhile isSpaceChar).reverse.dropWhile isSpaceChar).reverse

/-- `s.strip().title()` as applied by the Cleaner to text fields. -/
def strStripTitle (s : String) : String := String.mk (titleAux false (trimChars s.toList))

/-! ## Typed rows: the raw-record schema (`sales_data`) -/

/-- One row of the extracted batch.  Every field is optional because any
cell of the source frame can be `NaN`; `transform_data.clean_data` is the
code that removes (some of) the nulls. -/
structure RawRow where
  id : Option ℤ
  fecha : Option String
  producto : Option String
  categoria : Option String
  region : Option String
  cantidad : Option ℚ
  precio_unitario : Option ℚ
  descuento : Option ℚ
  total_venta : Option ℚ
  cliente_id : Option ℤ
  vendedor_id : Option ℤ
deriving DecidableEq, Repr

/-! ## Cleaner (`clean_data`), step by step -/

/-- `df.drop_duplicates()` keeping first occurrences, together with the
count reported by `df.duplicated().sum()`. -/
def dropDupAux : List RawRow → List RawRow → List RawRow × ℕ
  | _, [] => ([], 0)
  | seen, r :: rs =>
    if r ∈ seen then
      let p := dropDupAux seen rs
      (p.1, p.2 + 1)
    else
      let p := dropDupAux (r :: seen) rs
      (r :: p.1, p.2)

/-- Step 2 of `clean_data`: drop exact duplicate rows. -/
def drop_duplicates (l : List RawRow) : List RawRow × ℕ := dropDupAux [] l

/-- Step 3a of `clean_data`: `df['descuento'].fillna(0)`. -/
def fill_descuento (l : List RawRow) : List RawRow :=
  l.map (fun r => { r with descuento := some (r.descuento.getD 0) })

/-- A row has no null in the critical columns
`{fecha, producto, cantidad, precio_unitario}`. -/
def criticalOk (r : RawRow) : Bool :=
  r.fecha.isSome && r.producto.isSome && r.cantidad.isSome && r.precio_unitario.isSome

/-- Step 3b of `clean_data`: `df.dropna(subset=critical_columns)`, with the
reported count of dropped rows. -/
def dropna_critical (l : List RawRow) : List RawRow × ℕ :=
  (l.filter criticalOk, l.countP (fun r => !criticalOk r))

/-- `df['cantidad'] > 0` on a cell (`NaN` compares false). -/
def qtyPos (r : RawRow) : Bool :=
  match r.cantidad with
  | some q => decide (0 < q)
  | none => false

/-- `df['cantidad'] <= 0` on a cell (`NaN` compares false). -/
def qtyNonpos (r : RawRow) : Bool :=
  match r.cantidad with
  | some q => decide (q ≤ 0)
  | none => false

/-- Step 4a of `clean_data`: keep `cantidad > 0`, count `cantidad <= 0`. -/
def filter_cantidad (l : List RawRow) : List RawRow × ℕ :=
  (l.filter qtyPos, l.countP qtyNonpos)

/-- `df['precio_unitario'] > 0` on a cell. -/
def pricePos (r : RawRow) : Bool :=
  match r.precio_unitario with
  | some q => decide (0 < q)
  | none => false

/-- `df['precio_unitario'] <= 0` on a cell. -/
def priceNonpos (r : RawRow) : Bool :=
  match r.precio_unitario with
  | some q => decide (q ≤ 0)
  | none => false

/-- Step 4b of `clean_data`: keep `precio_unitario > 0`. -/
def filter_precio (l : List RawRow) : List RawRow × ℕ :=
  (l.filter pricePos, l.countP priceNonpos)

/-- Step 5 of `clean_data` (`remove_outliers` on `total_venta`):
Q1/Q3 are the interpolated 25th/75th percentiles of the non-null
`total_venta` values of the batch handed to this step, the admissible
range is `[Q1 - 3*IQR, Q3 + 3*IQR]`, rows outside it are dropped and
counted.  A row with null `total_venta` fails both the keep test and the
outlier test (`NaN` comparisons are false), so it is dropped *without*
being counted — exactly as in the pandas code. -/
def remove_outliers (l : List RawRow) : List RawRow × ℕ :=
  let values := l.filterMap (fun r => r.total_venta)
  match quantileLinear values (1/4), quantileLinear values (3/4) with
  | some q1, some q3 =>
    let iqr := q3 - q1
    let lower := q1 - 3 * iqr
    let upper := q3 + 3 * iqr
    (l.filter (fun r =>
        match r.total_venta with
        | some v => decide (lower ≤ v) && decide (v ≤ upper)
        | none => false),
     l.countP (fun r =>
        match r.total_venta with
        | some v => decide (v < lower) || decide (upper < v)
        | none => false))
  | _, _ => ([], 0)

/-- Step 6 of `clean_data`: strip and title-case the text columns. -/
def normalizeRow (r : RawRow) : RawRow :=
  { r with
    producto := r.producto.map strStripTitle
    categoria := r.categoria.map strStripTitle
    region := r.region.map strStripTitle }

/-- Step 6 of `clean_data`, lifted to the batch. -/
def normalize_text (l : List RawRow) : List RawRow := l.map normalizeRow

/-- The removal counters logged by `clean_data`. -/
structure CleanStats where
  duplicates : ℕ
  nullCritical : ℕ
  invalidQty : ℕ
  invalidPrice : ℕ
  outliers : ℕ
deriving DecidableEq, Repr

/-- The batch as it stands after steps 1-4 of `clean_data`, i.e. right
before the outlier filter (the set over which Q1/Q3 are computed). -/
def pre_outlier_batch (l : List RawRow) : List RawRow :=
  (filter_precio (filter_cantidad (dropna_critical (fill_descuento (drop_duplicates l).1)).1).1).1

/-- `clean_data`: date parse (spec assumes parseable, identity here),
duplicate removal, `descuento` fill, critical-null purge, positivity
filters, IQR outlier filter, text normalization; returns the cleaned
batch and the per-step removal counts. -/
def clean_data (l : List RawRow) : List RawRow × CleanStats :=
  let p1 := drop_duplicates l
  let l2 := fill_descuento p1.1
  let p3 := dropna_critical l2
  let p4 := filter_cantidad p3.1
  let p5 := filter_precio p4.1
  let p6 := remove_outliers p5.1
  (normalize_text p6.1,
   { duplicates := p1.2, nullCritical := p3.2, invalidQty := p4.2,
     invalidPrice := p5.2, outliers := p6.2 })

/-! ## Aggregator (`aggregate_data`) -/

/-- The group-by key `(fecha, producto, categoria, region)`; `none` when
any key column is null (pandas `groupby` silently drops such rows). -/
def keyOf (r : RawRow) : Option (String × String × String × String) :=
  match r.fecha, r.producto, r.categoria, r.region with
  | some f, some p, some c, some g => some (f, p, c, g)
  | _, _, _, _ => none

/-- Distinct keys in first-occurrence order (the pandas result is sorted
by key instead; no claim depends on the group order). -/
def dedupKeysAux : List (String × String × String × String) →
    List (String × String × String × String) → List (String × String × String × String)
  | _, [] => []
  | seen, k :: ks =>
    if k ∈ seen then dedupKeysAux seen ks else k :: dedupKeysAux (k :: seen) ks

/-- The list of group keys of a batch. -/
def batchKeys (l : List RawRow) : List (String × String × String × String) :=
  dedupKeysAux [] (l.filterMap keyOf)

/-- The rows of one group. -/
def groupRows (l : List RawRow) (k : String × String × String × String) : List RawRow :=
  l.filter (fun r => decide (keyOf r = some k))

/-- `Series.mean()` with pandas null-skipping: mean of the non-null
values, `NaN` when there are none. -/
def meanOpt (vs : List ℚ) : Option ℚ :=
  if vs.isEmpty then none else some (vs.sum / vs.length)

/-- One aggregated row (the target-table record shape). -/
structure AggRow where
  fecha : String
  producto : String
  categoria : String
  region : String
  cantidad_total : ℚ
  precio_promedio : Option ℚ
  descuento_promedio : Option ℚ
  total_venta : ℚ
  num_transacciones : ℕ
deriving DecidableEq, Repr

/-- The aggregation of one group: sums skip nulls, means skip nulls,
`'id': 'count'` counts the *non-null* ids, and the rounding
(2 decimals for `precio_promedio` and `total_venta`, 4 for
`descuento_promedio`) is applied once, after the reduction. -/
def mkAggRow (l : List RawRow) (k : String × String × String × String) : AggRow :=
  let g := groupRows l k
  { fecha := k.1
    producto := k.2.1
    categoria := k.2.2.1
    region := k.2.2.2
    cantidad_total := (g.filterMap (fun r => r.cantidad)).sum
    precio_promedio := (meanOpt (g.filterMap (fun r => r.precio_unitario))).map (roundTo 2)
    descuento_promedio := (meanOpt (g.filterMap (fun r => r.descuento))).map (roundTo 4)
    total_venta := roundTo 2 (g.filterMap (fun r => r.total_venta)).sum
    num_transacciones := g.countP (fun r => r.id.isSome) }

/-- `aggregate_data`: group by `(fecha, producto, categoria, region)` and
aggregate each group. -/
def aggregate_data (l : List RawRow) : List AggRow :=
  (batchKeys l).map (mkAggRow l)

/-! ## Untyped frames, for the schema validators and the load stage -/

/-- A cell of a pandas frame of unknown schema: a number, a string, a
datetime (carried as its canonical `YYYY-MM-DD` text) or a null. -/
inductive Value where
  | num (q : ℚ)
  | str (s : String)
  | date (d : String)
  | null
deriving DecidableEq, Repr

/-- A tabular batch: named columns plus rows of cells (row `i`, cell `j`
belongs to column `cols[j]`). -/
structure DF where
  cols : List String
  rows : List (List Value)
deriving DecidableEq, Repr

/-- Index of a column name. -/
def idxOf (c : String) : List String → Option ℕ
  | [] => none
  | c2 :: cs => if c2 = c then some 0 else (idxOf c cs).map (· + 1)

/-- `df[c]` — the cells of column `c`, or `none` (a `KeyError`) when the
column is absent. -/
def getCol (df : DF) (c : String) : Option (List Value) :=
  (idxOf c df.cols).map (fun i => df.rows.map (fun r => r.getD i Value.null))

/-- `df[c] = vs` — overwrite an existing column positionally. -/
def setCol (df : DF) (c : String) (vs : List Value) : DF :=
  match idxOf c df.cols with
  | some i => { df with rows := (df.rows.zip vs).map (fun p => p.1.set i p.2) }
  | none => df

/-- `df.drop(columns=[c])` for a single, possibly absent, column. -/
def dropCol (df : DF) (c : String) : DF :=
  match idxOf c df.cols with
  | some i => { cols := df.cols.eraseIdx i, rows := df.rows.map (fun r => r.eraseIdx i) }
  | none => df

/-- A frame is well-formed when every row has one cell per column. -/
def WF (df : DF) : Prop := ∀ r ∈ df.rows, r.length = df.cols.length

/-! ## Cell-level coercions -/

/-- A nonempty all-digit character list. -/
def isDigits (cs : List Char) : Bool := !cs.isEmpty && cs.all Char.isDigit

/-- A `YYYY-MM-DD`-shaped date literal (the shape produced and consumed
by the pipeline; `pd.to_datetime` accepts more formats, none of which
the repository produces). -/
def validDateString (s : String) : Bool :=
  match s.toList.splitOn '-' with
  | [y, m, d] => isDigits y && isDigits m && isDigits d
  | _ => false

/-- Apply a fallible function to every element; fail when any element
fails (the effect of a vectorized pandas operation that can raise). -/
def mapOption {α β : Type} (f : α → Option β) : List α → Option (List β)
  | [] => some []
  | a :: as => (f a).bind (fun b => (mapOption f as).map (fun bs => b :: bs))

/-- `pd.to_datetime` on one cell: datetimes pass through, parseable date
strings parse, nulls become `NaT`, anything else raises (modelled as
`none`; numeric epoch inputs are outside the modelled fragment). -/
def toDatetimeVal : Value → Option Value
  | .date d => some (.date d)
  | .str s => if validDateString s then some (.date s) else none
  | .null => some .null
  | .num _ => none

/-- A cell a numeric-dtype column can hold. -/
def isNumericValue : Value → Bool
  | .num _ => true
  | .null => true
  | _ => false

/-- `pd.api.types.is_numeric_dtype` for a column of cells. -/
def isNumericDtype (vs : List Value) : Bool := vs.all isNumericValue

/-- Digit run to a natural number. -/
def digitsVal (cs : List Char) : ℕ :=
  cs.foldl (fun a c => a * 10 + (c.toNat - 48)) 0

/-- An unsigned decimal literal `123` or `123.45`. -/
def parseUnsigned (cs : List Char) : Option ℚ :=
  match cs.splitOn '.' with
  | [ip] => if isDigits ip then some (digitsVal ip : ℚ) else none
  | [ip, fp] =>
    if isDigits ip && isDigits fp then
      some ((digitsVal ip : ℚ) + (digitsVal fp : ℚ) / 10 ^ fp.length)
    else none
  | _ => none

/-- A signed decimal literal, with surrounding whitespace tolerated. -/
def parseNumQ (s : String) : Option ℚ :=
  match trimChars s.toList with
  | '-' :: rest => (parseUnsigned rest).map Neg.neg
  | '+' :: rest => parseUnsigned rest
  | cs => parseUnsigned cs

/-- `pd.to_numeric(x, errors='coerce')` on one cell: numbers and nulls
pass, numeric strings parse, anything non-coercible becomes null.  This
function is *total*: coercion never raises. -/
def coerceNumVal : Value → Value
  | .num q => .num q
  | .null => .null
  | .str s =>
    match parseNumQ s with
    | some q => .num q
    | none => .null
  | .date _ => .null

/-- `NaN`/`None` test on a cell. -/
def isNullValue : Value → Bool
  | .null => true
  | _ => false

/-- `cell < 0` (null compares false; non-numeric cells are outside the
modelled fragment of the comparison and compare false). -/
def isNegValue : Value → Bool
  | .num q => decide (q < 0)
  | _ => false

/-! ## Extraction-side validator (`validate_extracted_data`) -/

def requiredExtractCols : List String :=
  ["id", "fecha", "producto", "cantidad", "precio_unitario", "total_venta"]

def numericExtractCols : List String := ["cantidad", "precio_unitario", "total_venta"]

/-- Check 4 of `validate_extracted_data`: for each declared numeric
column that is present but not of numeric dtype, run
`df[col] = pd.to_numeric(df[col], errors='coerce')` — which never raises
— and append `True` to the validation list (the `except: append(False)`
branch of the source is unreachable).  Returns the appended booleans and
the frame after the in-place coercions. -/
def numericChecks : List String → DF → List Bool × DF
  | [], df => ([], df)
  | c :: cs, df =>
    if df.cols.contains c then
      match getCol df c with
      | some vs =>
        if isNumericDtype vs then numericChecks cs df
        else
          let df2 := setCol df c (vs.map coerceNumVal)
          let p := numericChecks cs df2
          (true :: p.1, p.2)
      | none => numericChecks cs df
    else numericChecks cs df

/-- `validate_extracted_data`: the ordered list of recorded check results
(non-emptiness, required columns, date conversion, then one entry per
coerced numeric column), and the batch *as mutated in place* by the date
conversion and the numeric coercions.  The final verdict of the source
function is the conjunction of the list. -/
def validate_extracted_data (df : DF) : List Bool × DF :=
  let b1 := !df.rows.isEmpty
  let b2 := requiredExtractCols.all (fun c => df.cols.contains c)
  let fech :=
    match getCol df "fecha" with
    | none => (false, df)
    | some vs =>
      match mapOption toDatetimeVal vs with
      | none => (false, df)
      | some vs2 => (true, setCol df "fecha" vs2)
  let p := numericChecks numericExtractCols fech.2
  ([b1, b2, fech.1] ++ p.1, p.2)

/-- The verdict returned by `validate_extracted_data`. -/
def extractValid (df : DF) : Bool := (validate_extracted_data df).1.all (fun b => b)

/-- The `extract` entry point after the source read: validate, and only
on success write the checkpoint artifact (the saved frame is the one the
validator mutated).  On failure the artifact slot is untouched and a
`ValueError` is raised. -/
def extract (df : DF) (artifact : Option DF) : Option DF × Except Unit DF :=
  let p := validate_extracted_data df
  if p.1.all (fun b => b) then (some p.2, .ok p.2) else (artifact, .error ())

/-! ## Load-side validator, preparation, and write protocol -/

def requiredLoadCols : List String :=
  ["fecha", "producto", "categoria", "region",
   "cantidad_total", "precio_promedio", "total_venta", "num_transacciones"]

def criticalLoadCols : List String := ["fecha", "producto", "total_venta"]

/-- The numeric columns the negativity check actually scans.  Note that
`descuento_promedio` is *not* among them in the source. -/
def numericLoadCols : List String :=
  ["cantidad_total", "precio_promedio", "total_venta", "num_transacciones"]

def dupSubsetCols : List String := ["fecha", "producto", "categoria", "region"]

/-- `validate_data_before_load`: `.error` models an uncaught `KeyError`
(`df[critical_columns]` or `df.duplicated(subset=...)` on a frame
missing one of those columns), `.ok b` the returned verdict.  An empty
frame returns `False` immediately; otherwise the verdict is the
conjunction of the required-columns check, the critical-nulls check and
one negativity check per present column of `numericLoadCols` (the
duplicate count is only a warning). -/
def validate_data_before_load (df : DF) : Except Unit Bool :=
  if df.rows.isEmpty then .ok false
  else
    let b2 := requiredLoadCols.all (fun c => df.cols.contains c)
    match criticalLoadCols.mapM (getCol df) with
    | none => .error ()
    | some critVals =>
      let b3 := critVals.all (fun vs => !vs.any isNullValue)
      let negOk := numericLoadCols.filterMap
        (fun c => (getCol df c).map (fun vs => !vs.any isNegValue))
      match dupSubsetCols.mapM (getCol df) with
      | none => .error ()
      | some _ => .ok (b2 && b3 && negOk.all (fun b => b))

/-- `.dt.strftime('%Y-%m-%d')` on one already-converted cell
(`NaT` maps to null). -/
def strftimeVal : Value → Value
  | .date d => .str d
  | .null => .null
  | v => v

def numericPrepCols : List String :=
  ["cantidad_total", "precio_promedio", "descuento_promedio", "total_venta", "num_transacciones"]

/-- In-place `pd.to_numeric(..., errors='coerce')` over a column list. -/
def coerceCols : List String → DF → DF
  | [], df => df
  | c :: cs, df =>
    match getCol df c with
    | some vs => coerceCols cs (setCol df c (vs.map coerceNumVal))
    | none => coerceCols cs df

/-- A total comparison on cells used to model `sort_values('fecha')`
(rank by constructor, then by payload).  The source sort is not stable;
only determinism and permutation matter to the claims. -/
def valueRank : Value → ℕ
  | .null => 0
  | .num _ => 1
  | .str _ => 2
  | .date _ => 3

def valueLeB : Value → Value → Bool
  | .num a, .num b => decide (a ≤ b)
  | .str a, .str b => decide (a ≤ b)
  | .date a, .date b => decide (a ≤ b)
  | a, b => decide (valueRank a ≤ valueRank b)

/-- Insertion step of the row sort. -/
def insertRowBy (le : List Value → List Value → Bool) (r : List Value) :
    List (List Value) → List (List Value)
  | [] => [r]
  | x :: xs => if le r x then r :: x :: xs else x :: insertRowBy le r xs

/-- Sort rows by a comparison. -/
def sortRowsBy (le : List Value → List Value → Bool) (rs : List (List Value)) :
    List (List Value) :=
  rs.foldr (insertRowBy le) []

/-- `df.sort_values(c)`; `none` models the `KeyError` on a missing
column. -/
def sortRowsByCol (df : DF) (c : String) : Option DF :=
  match idxOf c df.cols with
  | some i =>
    some { df with rows := sortRowsBy (fun r s => valueLeB (r.getD i .null) (s.getD i .null)) df.rows }
  | none => none

/-- `prepare_data_for_load`: canonicalize `fecha` to string dates (raises
on unparseable values), coerce the numeric columns, drop incidental
index columns, sort by `fecha`. -/
def prepare_data_for_load (df : DF) : Option DF :=
  let step1 : Option DF :=
    if df.cols.contains "fecha" then
      match getCol df "fecha" with
      | some vs =>
        match mapOption toDatetimeVal vs with
        | some vs2 => some (setCol df "fecha" (vs2.map strftimeVal))
        | none => none
      | none => some df
    else some df
  match step1 with
  | none => none
  | some df1 =>
    let df2 := coerceCols numericPrepCols df1
    let df3 := dropCol (dropCol df2 "Unnamed: 0") "index"
    sortRowsByCol df3 "fecha"

/-! ## The store and the write protocol -/

/-- The SQLite database: table name to table contents. -/
def Store := String → Option (List (List Value))

/-- Create-or-replace a table. -/
def storeSet (s : Store) (t : String) (rows : List (List Value)) : Store :=
  fun t2 => if t2 = t then some rows else s t2

/-- The `if_exists` modes of `DataFrame.to_sql`. -/
inductive IfExists where
  | replace
  | append
  | fail
deriving DecidableEq, Repr

/-- The default target table name (`db_config.table_target`). -/
def tableTarget : String := "sales_transformed"

/-- `load_to_database`: `df.to_sql(table, conn, if_exists=mode)` plus the
returned `len(df)`.  Replace mode swaps in the new contents whole;
append concatenates; fail raises when the table exists. -/
def load_to_database (df : DF) (tbl : String) (mode : IfExists) (s : Store) :
    Except Unit (Store × ℕ) :=
  match mode with
  | .replace => .ok (storeSet s tbl df.rows, df.rows.length)
  | .append =>
    match s tbl with
    | some old => .ok (storeSet s tbl (old ++ df.rows), df.rows.length)
    | none => .ok (storeSet s tbl df.rows, df.rows.length)
  | .fail =>
    match s tbl with
    | some _ => .error ()
    | none => .ok (storeSet s tbl df.rows, df.rows.length)

/-- `<target>_backup_<timestamp>`. -/
def backupName (tbl ts : String) : String := tbl ++ "_backup_" ++ ts

/-- `backup_existing_data`: copy the target table verbatim into a fresh
timestamped table when it exists; a no-op otherwise. -/
def backup_existing_data (tbl ts : String) (s : Store) : Store :=
  match s tbl with
  | none => s
  | some rows => storeSet s (backupName tbl ts) rows

/-- How the `load` entry point can abort before writing. -/
inductive LoadError where
  | keyError
  | validationFailed
  | prepareFailed
deriving DecidableEq, Repr

/-- The `load` entry point (for an already-read aggregated batch `df` and
run timestamp `ts`): validate — raising (`keyError`) or aborting
(`validationFailed`) *before any store access* — then prepare, back up
the target table, and replace its contents; returns the store after the
run and `records_loaded` (index creation and the statistics queries do
not change table contents and are omitted). -/
def load (df : DF) (ts : String) (s : Store) : Store × Except LoadError ℕ :=
  match validate_data_before_load df with
  | .error _ => (s, .error .keyError)
  | .ok false => (s, .error .validationFailed)
  | .ok true =>
    match prepare_data_for_load df with
    | none => (s, .error .prepareFailed)
    | some dfp =>
      let s1 := backup_existing_data tableTarget ts s
      match load_to_database dfp tableTarget .replace s1 with
      | .ok (s2, n) => (s2, .ok n)
      | .error _ => (s1, .error .keyError)

/-! ## Concrete batches used by witnesses and counterexamples -/

/-- A fully-populated row template (text fields are fixed points of the
normalization). -/
def mkRow (i : ℤ) (tv : Option ℚ) : RawRow :=
  { id := some i, fecha := some "2024-01-01", producto := some "A",
    categoria := some "B", region := some "C", cantidad := some 1,
    precio_unitario := some 1, descuento := some 0, total_venta := tv,
    cliente_id := some 1, vendedor_id := some 1 }

/-- The three-row batch of the spec's outlier scenario:
`total_venta` 100, 105 and 1000000. -/
def outlierScenarioBatch : List RawRow :=
  [mkRow 1 (some 100), mkRow 2 (some 105), mkRow 3 (some 1000000)]



/-! ## Concrete frames and stores used by witnesses and counterexamples -/

/-- A row whose `categoria` is null (its group key is undefined). -/
def nullCatRow : RawRow := { mkRow 1 (some 100) with categoria := none }

/-- The C10 counterexample batch: two rows of the same group key, one
with a null `id`. -/
def nullIdBatch : List RawRow :=
  [mkRow 1 (some 100), { mkRow 2 (some 100) with id := none }]

/-- The store with no tables (a fresh database file). -/
def emptyStore : Store := fun _ => none

/-- A well-formed one-row aggregated batch that passes pre-load
validation and is a fixed point of the preparation step. -/
def aggBatchOk : DF :=
  { cols := ["fecha", "producto", "categoria", "region", "cantidad_total",
      "precio_promedio", "total_venta", "num_transacciones"]
    rows := [[.str "2024-01-01", .str "A", .str "B", .str "C", .num 10,
      .num 1, .num 100, .num 5]] }

/-- `pd.DataFrame()` — the empty frame handed to the extraction
validator. -/
def emptyExtractBatch : DF := { cols := [], rows := [] }

/-- An extraction batch missing the `producto` column. -/
def noProductoExtractBatch : DF :=
  { cols := ["id", "fecha", "cantidad", "precio_unitario", "total_venta"]
    rows := [[.num 1, .str "2024-01-01", .num 1, .num 1, .num 1]] }

/-- An aggregated batch with the right schema but no rows. -/
def emptyLoadBatch : DF := { cols := requiredLoadCols, rows := [] }

/-- An aggregated batch missing the `producto` column. -/
def noProductoLoadBatch : DF :=
  { cols := ["fecha", "categoria", "region", "cantidad_total",
      "precio_promedio", "total_venta", "num_transacciones"]
    rows := [[.str "2024-01-01", .str "B", .str "C", .num 10, .num 1, .num 100, .num 5]] }

/-- An aggregated batch with `cantidad_total = -5`. -/
def negQtyLoadBatch : DF :=
  { cols := ["fecha", "producto", "categoria", "region", "cantidad_total",
      "precio_promedio", "total_venta", "num_transacciones"]
    rows := [[.str "2024-01-01", .str "A", .str "B", .str "C", .num (-5),
      .num 1, .num 100, .num 5]] }

/-- An aggregated batch whose `precio_promedio` contains a negative
entry. -/
def negPrecioLoadBatch : DF :=
  { cols := ["fecha", "producto", "categoria", "region", "cantidad_total",
      "precio_promedio", "total_venta", "num_transacciones"]
    rows := [[.str "2024-01-01", .str "A", .str "B", .str "C", .num 10,
      .num (-1), .num 100, .num 5]] }

/-- An aggregated batch whose only negative value sits in
`descuento_promedio`. -/
def negDescLoadBatch : DF :=
  { cols := ["fecha", "producto", "categoria", "region", "cantidad_total",
      "precio_promedio", "total_venta", "num_transacciones", "descuento_promedio"]
    rows := [[.str "2024-01-01", .str "A", .str "B", .str "C", .num 10,
      .num 1, .num 100, .num 5, .num (-1)]] }

/-- An extraction batch whose `cantidad` column holds the non-coercible
string value `abc`. -/
def nonCoercibleBatch : DF :=
  { cols := ["id", "fecha", "producto", "cantidad", "precio_unitario", "total_venta"]
    rows := [[.num 1, .str "2024-01-01", .str "A", .str "abc", .num 1, .num 1]] }

/-- An extraction batch whose `fecha` column is already datetime-typed
and whose numeric columns are numeric. -/
def typedExtractBatch : DF :=
  { cols := ["id", "fecha", "producto", "cantidad", "precio_unitario", "total_venta"]
    rows := [[.num 1, .date "2024-01-01", .str "A", .num 1, .num 1, .num 1]] }

/-- An extraction batch whose `fecha` column holds date strings (the
shape `pd.read_sql_query` actually produces). -/
def strFechaBatch : DF :=
  { cols := ["id", "fecha", "producto", "cantidad", "precio_unitario", "total_venta"]
    rows := [[.num 1, .str "2024-01-01", .str "A", .num 1, .num 1, .num 1]] }
/-! ## Generic lemmas -/

theorem insertSorted_length (x : ℚ) (l : List ℚ) :
    (insertSorted x l).length = l.length + 1 := by
  induction l with
  | nil => rfl
  | cons y ys ih =>
    simp only [insertSorted]
    split
    · simp
    · simp [ih]

theorem sortRats_length (l : List ℚ) : (sortRats l).length = l.length := by
  induction l with
  | nil => rfl
  | cons x xs ih => simp [sortRats, List.foldr] at ih ⊢; rw [insertSorted_length, ih]

/-- A quantile of a nonempty series with `q ∈ [0,1]` is defined. -/
theorem quantileLinear_isSome (l : List ℚ) (q : ℚ) (h0 : 0 ≤ q) (h1 : q ≤ 1)
    (hl : l ≠ []) : ∃ x, quantileLinear l q = some x := by
  have hlen : (sortRats l).length = l.length := sortRats_length l
  have hpos : 0 < (sortRats l).length := by
    rw [hlen]
    exact List.length_pos.mpr hl
  have hne : (sortRats l).isEmpty = false := by
    cases hs : sortRats l with
    | nil => rw [hs] at hpos; simp at hpos
    | cons a as => simp
  have hh0 : (0 : ℚ) ≤ q * (((sortRats l).length : ℚ) - 1) := by
    have h2 : (1 : ℚ) ≤ ((sortRats l).length : ℚ) := by exact_mod_cast hpos
    have := sub_nonneg.mpr h2
    positivity
  have hh1 : q * (((sortRats l).length : ℚ) - 1) ≤ ((sortRats l).length : ℚ) - 1 := by
    have h2 : (1 : ℚ) ≤ ((sortRats l).length : ℚ) := by exact_mod_cast hpos
    nlinarith
  have hflub : ⌊q * (((sortRats l).length : ℚ) - 1)⌋ ≤ ((sortRats l).length : ℤ) - 1 := by
    have h2 := Int.floor_le_floor hh1
    have h3 : ⌊((sortRats l).length : ℚ) - 1⌋ = ((sortRats l).length : ℤ) - 1 := by
      have h4 := Int.floor_intCast (α := ℚ) (((sortRats l).length : ℤ) - 1)
      rw [show ((((sortRats l).length : ℤ) - 1 : ℤ) : ℚ) = ((sortRats l).length : ℚ) - 1 by
        push_cast; ring] at h4
      exact h4
    exact h3 ▸ h2
  have hidx : (⌊q * (((sortRats l).length : ℚ) - 1)⌋).toNat < (sortRats l).length := by
    have h2 := Int.toNat_le_toNat hflub
    omega
  obtain ⟨a, ha⟩ : ∃ a, (sortRats l).get? (⌊q * (((sortRats l).length : ℚ) - 1)⌋).toNat = some a := by
    rw [List.get?_eq_get hidx]
    exact ⟨_, rfl⟩
  simp only [quantileLinear, hne, Bool.false_eq_true, if_false, ha]
  cases hb : (sortRats l).get? ((⌊q * (((sortRats l).length : ℚ) - 1)⌋).toNat + 1) with
  | none => exact ⟨a, rfl⟩
  | some b => exact ⟨_, rfl⟩

theorem dropDupAux_conservation :
    ∀ (rs seen : List RawRow),
      (dropDupAux seen rs).1.length + (dropDupAux seen rs).2 = rs.length := by
  intro rs
  induction rs with
  | nil => intro seen; rfl
  | cons r rs ih =>
    intro seen
    simp only [dropDupAux]
    split
    · have := ih seen
      simp only [List.length_cons]
      omega
    · have := ih (r :: seen)
      simp only [List.length_cons]
      omega

theorem dropDupAux_subset :
    ∀ (rs seen : List RawRow) (r : RawRow), r ∈ (dropDupAux seen rs).1 → r ∈ rs := by
  intro rs
  induction rs with
  | nil => intro seen r h; simp [dropDupAux] at h
  | cons x rs ih =>
    intro seen r h
    simp only [dropDupAux] at h
    split at h
    · exact List.mem_cons_of_mem _ (ih seen r h)
    · rcases List.mem_cons.mp h with h | h
      · exact h ▸ List.mem_cons_self _ _
      · exact List.mem_cons_of_mem _ (ih _ r h)

theorem filter_countP_conservation {α : Type} (l : List α) (p : α → Bool) :
    (l.filter p).length + l.countP (fun a => !p a) = l.length := by
  induction l with
  | nil => rfl
  | cons x xs ih =>
    by_cases hx : p x = true
    · simp [List.filter_cons, List.countP_cons, hx, ← ih]
      omega
    · have hx2 : p x = false := by simpa using hx
      simp [List.filter_cons, List.countP_cons, hx2, ← ih]
      omega

theorem countP_congr_mem {α : Type} (l : List α) (p q : α → Bool)
    (h : ∀ a ∈ l, p a = q a) : l.countP p = l.countP q := by
  induction l with
  | nil => rfl
  | cons x xs ih =>
    simp only [List.countP_cons, h x (List.mem_cons_self _ _),
      ih (fun a ha => h a (List.mem_cons_of_mem _ ha))]

/-! ## Conservation of the cleaning stage (claim C1) -/

theorem fill_descuento_total_venta (l : List RawRow) (r : RawRow)
    (h : r ∈ fill_descuento l) : ∃ r0 ∈ l, r.total_venta = r0.total_venta := by
  rcases List.mem_map.mp h with ⟨r0, hr0, heq⟩
  exact ⟨r0, hr0, by rw [← heq]⟩

theorem remove_outliers_conservation (l : List RawRow)
    (h : ∀ r ∈ l, r.total_venta.isSome) :
    (remove_outliers l).1.length + (remove_outliers l).2 = l.length := by
  rcases hl : l with _ | ⟨r, rs⟩
  · rfl
  · rw [← hl]
    have hvne : l.filterMap (fun r => r.total_venta) ≠ [] := by
      rcases Option.isSome_iff_exists.mp (h r (hl ▸ List.mem_cons_self _ _)) with ⟨v, hv⟩
      intro hempty
      have : v ∈ l.filterMap (fun r => r.total_venta) :=
        List.mem_filterMap.mpr ⟨r, hl ▸ List.mem_cons_self _ _, hv⟩
      rw [hempty] at this
      simp at this
    obtain ⟨q1, hq1⟩ := quantileLinear_isSome _ (1/4) (by norm_num) (by norm_num) hvne
    obtain ⟨q3, hq3⟩ := quantileLinear_isSome _ (3/4) (by norm_num) (by norm_num) hvne
    simp only [remove_outliers, hq1, hq3]
    rw [← filter_countP_conservation l
      (fun r => match r.total_venta with
        | some v => decide (q1 - 3 * (q3 - q1) ≤ v) && decide (v ≤ q3 + 3 * (q3 - q1))
        | none => false)]
    congr 1
    apply countP_congr_mem
    intro a ha
    rcases Option.isSome_iff_exists.mp (h a ha) with ⟨v, hv⟩
    simp only [hv]
    by_cases h1 : q1 - 3 * (q3 - q1) ≤ v
    · by_cases h2 : v ≤ q3 + 3 * (q3 - q1)
      · simp [h1, h2, not_lt.mpr h1, not_lt.mpr h2]
      · simp [h1, h2, not_lt.mpr h1, lt_of_not_ge h2]
    · simp [h1, lt_of_not_ge h1]

/-- Auxiliary membership facts for the cleaning chain. -/
theorem pre_outlier_total_venta_isSome (l : List RawRow)
    (h : ∀ r ∈ l, r.total_venta.isSome) :
    ∀ r ∈ pre_outlier_batch l, r.total_venta.isSome := by
  intro r hr
  unfold pre_outlier_batch at hr
  unfold filter_precio at hr
  have hr2 := List.mem_of_mem_filter hr
  unfold filter_cantidad at hr2
  have hr3 := List.mem_of_mem_filter hr2
  unfold dropna_critical at hr3
  have hr4 := List.mem_of_mem_filter hr3
  rcases fill_descuento_total_venta _ _ hr4 with ⟨r0, hr0, heq⟩
  rw [heq]
  exact h r0 (dropDupAux_subset l [] r0 hr0)

/-- C1 (amended): conservation of the cleaning stage, for batches in
which `total_venta` is never null.  (The unrestricted claim is refuted by
`c1_counterexample`: a row whose `total_venta` is null is dropped by the
outlier filter without being counted by any removal counter.) -/
theorem clean_data_conservation (l : List RawRow)
    (h : ∀ r ∈ l, r.total_venta.isSome) :
    (clean_data l).1.length + (clean_data l).2.duplicates +
      (clean_data l).2.nullCritical + (clean_data l).2.invalidQty +
      (clean_data l).2.invalidPrice + (clean_data l).2.outliers = l.length := by
  have hdup := dropDupAux_conservation l []
  have hpre := pre_outlier_total_venta_isSome l h
  simp only [clean_data, normalize_text, List.length_map]
  have hqty : ∀ r ∈ (dropna_critical (fill_descuento (drop_duplicates l).1)).1,
      r.cantidad.isSome ∧ r.precio_unitario.isSome := by
    intro r hr
    unfold dropna_critical at hr
    have := List.of_mem_filter hr
    unfold criticalOk at this
    simp only [Bool.and_eq_true] at this
    exact ⟨this.1.2, this.2⟩
  -- conservation of each counting step
  have h3 : (dropna_critical (fill_descuento (drop_duplicates l).1)).1.length +
      (dropna_critical (fill_descuento (drop_duplicates l).1)).2 =
      (fill_descuento (drop_duplicates l).1).length :=
    filter_countP_conservation _ _
  have h4 : (filter_cantidad (dropna_critical (fill_descuento (drop_duplicates l).1)).1).1.length +
      (filter_cantidad (dropna_critical (fill_descuento (drop_duplicates l).1)).1).2 =
      (dropna_critical (fill_descuento (drop_duplicates l).1)).1.length := by
    unfold filter_cantidad
    rw [← filter_countP_conservation
      (dropna_critical (fill_descuento (drop_duplicates l).1)).1 qtyPos]
    congr 1
    apply countP_congr_mem
    intro a ha
    rcases Option.isSome_iff_exists.mp (hqty a ha).1 with ⟨v, hv⟩
    simp only [qtyNonpos, qtyPos, hv]
    by_cases h0 : 0 < v
    · simp [h0, not_le.mpr h0]
    · simp [h0, le_of_not_lt h0]
  have h5 : (filter_precio (filter_cantidad (dropna_critical (fill_descuento (drop_duplicates l).1)).1).1).1.length +
      (filter_precio (filter_cantidad (dropna_critical (fill_descuento (drop_duplicates l).1)).1).1).2 =
      (filter_cantidad (dropna_critical (fill_descuento (drop_duplicates l).1)).1).1.length := by
    unfold filter_precio
    rw [← filter_countP_conservation
      (filter_cantidad (dropna_critical (fill_descuento (drop_duplicates l).1)).1).1 pricePos]
    congr 1
    apply countP_congr_mem
    intro a ha
    unfold filter_cantidad at ha
    have ha2 := List.mem_of_mem_filter ha
    rcases Option.isSome_iff_exists.mp (hqty a ha2).2 with ⟨v, hv⟩
    simp only [priceNonpos, pricePos, hv]
    by_cases h0 : 0 < v
    · simp [h0, not_le.mpr h0]
    · simp [h0, le_of_not_lt h0]
  have h6 := remove_outliers_conservation _ hpre
  unfold pre_outlier_batch at h6
  have hfill : (fill_descuento (drop_duplicates l).1).length = (drop_duplicates l).1.length :=
    List.length_map _ _
  unfold drop_duplicates at hdup hfill h3 h4 h5 h6 ⊢
  omega

end ETL

namespace ETL

/-- The cleaning pipeline spelled out as a composition (definitional). -/
theorem clean_data_eq (l : List RawRow) :
    clean_data l = (normalize_text (remove_outliers (pre_outlier_batch l)).1,
      { duplicates := (drop_duplicates l).2
        nullCritical := (dropna_critical (fill_descuento (drop_duplicates l).1)).2
        invalidQty := (filter_cantidad (dropna_critical (fill_descuento (drop_duplicates l).1)).1).2
        invalidPrice :=
          (filter_precio (filter_cantidad (dropna_critical (fill_descuento (drop_duplicates l).1)).1).1).2
        outliers := (remove_outliers (pre_outlier_batch l)).2 }) := rfl

/-- C1, counterexample: a single-row batch whose `total_venta` is null
violates the conservation equation — the row is dropped by the outlier
filter (null comparisons are false) but counted by none of the removal
counters, so the counts sum to 0 while the raw batch has 1 row. -/
theorem c1_conservation_counterexample :
    ¬ ((clean_data [mkRow 1 none]).1.length + (clean_data [mkRow 1 none]).2.duplicates +
        (clean_data [mkRow 1 none]).2.nullCritical + (clean_data [mkRow 1 none]).2.invalidQty +
        (clean_data [mkRow 1 none]).2.invalidPrice + (clean_data [mkRow 1 none]).2.outliers =
        ([mkRow 1 none] : List RawRow).length) := by
  decide

/-- C1, witness: the amended conservation theorem applied to a concrete
two-row batch with non-null `total_venta`. -/
theorem c1_conservation_witness :
    (∀ r ∈ [mkRow 1 (some 100), mkRow 2 (some 105)], r.total_venta.isSome) ∧
    (clean_data [mkRow 1 (some 100), mkRow 2 (some 105)]).1.length +
      (clean_data [mkRow 1 (some 100), mkRow 2 (some 105)]).2.duplicates +
      (clean_data [mkRow 1 (some 100), mkRow 2 (some 105)]).2.nullCritical +
      (clean_data [mkRow 1 (some 100), mkRow 2 (some 105)]).2.invalidQty +
      (clean_data [mkRow 1 (some 100), mkRow 2 (some 105)]).2.invalidPrice +
      (clean_data [mkRow 1 (some 100), mkRow 2 (some 105)]).2.outliers =
      ([mkRow 1 (some 100), mkRow 2 (some 105)] : List RawRow).length := by
  have hs : ∀ r ∈ [mkRow 1 (some 100), mkRow 2 (some 105)], r.total_venta.isSome := by
    decide
  exact ⟨hs, clean_data_conservation _ hs⟩

/-- C2 (confirmed): every row surviving `clean_data` has a non-null
`total_venta` lying in `[Q1 - 3*IQR, Q3 + 3*IQR]`, where Q1/Q3 are the
interpolated quartiles of `total_venta` over the batch as it stands just
before the outlier filter. -/
theorem clean_data_outlier_bound (l : List RawRow) (r : RawRow)
    (hr : r ∈ (clean_data l).1) :
    ∃ q1 q3 v,
      quantileLinear ((pre_outlier_batch l).filterMap (fun x => x.total_venta)) (1/4) = some q1 ∧
      quantileLinear ((pre_outlier_batch l).filterMap (fun x => x.total_venta)) (3/4) = some q3 ∧
      r.total_venta = some v ∧
      q1 - 3 * (q3 - q1) ≤ v ∧ v ≤ q3 + 3 * (q3 - q1) := by
  have hcd : (clean_data l).1 = normalize_text (remove_outliers (pre_outlier_batch l)).1 := rfl
  rw [hcd] at hr
  rcases List.mem_map.mp hr with ⟨r1, hr1, hnorm⟩
  have htv : r.total_venta = r1.total_venta := by rw [← hnorm]; rfl
  cases hq1 : quantileLinear ((pre_outlier_batch l).filterMap (fun x => x.total_venta)) (1/4) with
  | none =>
    simp only [remove_outliers, hq1] at hr1
    simp at hr1
  | some q1 =>
    cases hq3 : quantileLinear ((pre_outlier_batch l).filterMap (fun x => x.total_venta)) (3/4) with
    | none =>
      simp only [remove_outliers, hq1, hq3] at hr1
      simp at hr1
    | some q3 =>
      simp only [remove_outliers, hq1, hq3] at hr1
      have htest := List.of_mem_filter hr1
      cases hv : r1.total_venta with
      | none => rw [hv] at htest; simp at htest
      | some v =>
        rw [hv] at htest
        simp only [Bool.and_eq_true, decide_eq_true_eq] at htest
        exact ⟨q1, q3, v, rfl, rfl, htv.trans hv, htest.1, htest.2⟩

/-- C2, witness: the outlier bound evaluated on a concrete one-row
batch. -/
theorem clean_data_outlier_bound_witness :
    mkRow 1 (some 100) ∈ (clean_data [mkRow 1 (some 100)]).1 ∧
    (∃ q1 q3 v,
      quantileLinear ((pre_outlier_batch [mkRow 1 (some 100)]).filterMap
        (fun x => x.total_venta)) (1/4) = some q1 ∧
      quantileLinear ((pre_outlier_batch [mkRow 1 (some 100)]).filterMap
        (fun x => x.total_venta)) (3/4) = some q3 ∧
      (mkRow 1 (some 100)).total_venta = some v ∧
      q1 - 3 * (q3 - q1) ≤ v ∧ v ≤ q3 + 3 * (q3 - q1)) := by
  have hpre : pre_outlier_batch [mkRow 1 (some 100)] = [mkRow 1 (some 100)] := by decide
  have hv : List.filterMap (fun r => r.total_venta) [mkRow 1 (some 100)] = [100] := by decide
  have hq1 : quantileLinear [(100 : ℚ)] (1/4) = some 100 := by
    norm_num [quantileLinear, sortRats, insertSorted]
  have hq3 : quantileLinear [(100 : ℚ)] (3/4) = some 100 := by
    norm_num [quantileLinear, sortRats, insertSorted]
  have hro : remove_outliers [mkRow 1 (some 100)] = ([mkRow 1 (some 100)], 0) := by
    simp only [remove_outliers, hv, hq1, hq3]
    norm_num [mkRow, List.filter, List.countP, List.countP.go]
  have hm : mkRow 1 (some 100) ∈ (clean_data [mkRow 1 (some 100)]).1 := by
    have hcd : (clean_data [mkRow 1 (some 100)]).1 =
        normalize_text (remove_outliers (pre_outlier_batch [mkRow 1 (some 100)])).1 := rfl
    rw [hcd, hpre, hro]
    have hn : normalize_text ([mkRow 1 (some 100)], (0 : ℕ)).1 = [mkRow 1 (some 100)] := by
      decide
    rw [hn]
    exact List.mem_singleton.mpr rfl
  exact ⟨hm, clean_data_outlier_bound _ _ hm⟩

/-- C6, counterexample: on the spec's three-row scenario batch
(`total_venta` 100, 105, 1000000) the cleaning stage does NOT reduce the
batch to the claimed two rows — the pandas quantiles interpolate and the
extreme value inflates Q3, so nothing is dropped. -/
theorem c6_outlier_scenario_counterexample :
    (clean_data outlierScenarioBatch).1.length ≠ 2 := by
  have hpre : pre_outlier_batch outlierScenarioBatch = outlierScenarioBatch := by decide
  have hv : List.filterMap (fun r => r.total_venta) outlierScenarioBatch =
      [100, 105, 1000000] := by decide
  have hq1 : quantileLinear [(100 : ℚ), 105, 1000000] (1/4) = some (205/2) := by
    norm_num [quantileLinear, sortRats, insertSorted]
  have hq3 : quantileLinear [(100 : ℚ), 105, 1000000] (3/4) = some (1000105/2) := by
    norm_num [quantileLinear, sortRats, insertSorted]
  have hro : remove_outliers outlierScenarioBatch = (outlierScenarioBatch, 0) := by
    simp only [remove_outliers, hv, hq1, hq3]
    norm_num [outlierScenarioBatch, mkRow, List.filter, List.countP, List.countP.go]
  have hcd : (clean_data outlierScenarioBatch).1 =
      normalize_text (remove_outliers (pre_outlier_batch outlierScenarioBatch)).1 := rfl
  rw [Ne, hcd, hpre, hro]
  decide

/-- C6 (amended): on the scenario batch the interpolated quartiles are
Q1 = 102.5 and Q3 = 500052.5 (not roughly 100 and 105): the admissible
range swallows the extreme row, the outlier counter stays 0 and all
three rows survive cleaning. -/
theorem c6_outlier_scenario_amended :
    quantileLinear ((pre_outlier_batch outlierScenarioBatch).filterMap
      (fun x => x.total_venta)) (1/4) = some (205/2) ∧
    quantileLinear ((pre_outlier_batch outlierScenarioBatch).filterMap
      (fun x => x.total_venta)) (3/4) = some (1000105/2) ∧
    (clean_data outlierScenarioBatch).2.outliers = 0 ∧
    (clean_data outlierScenarioBatch).1.length = 3 := by
  have hpre : pre_outlier_batch outlierScenarioBatch = outlierScenarioBatch := by decide
  have hv : List.filterMap (fun r => r.total_venta) outlierScenarioBatch =
      [100, 105, 1000000] := by decide
  have hq1 : quantileLinear [(100 : ℚ), 105, 1000000] (1/4) = some (205/2) := by
    norm_num [quantileLinear, sortRats, insertSorted]
  have hq3 : quantileLinear [(100 : ℚ), 105, 1000000] (3/4) = some (1000105/2) := by
    norm_num [quantileLinear, sortRats, insertSorted]
  have hro : remove_outliers outlierScenarioBatch = (outlierScenarioBatch, 0) := by
    simp only [remove_outliers, hv, hq1, hq3]
    norm_num [outlierScenarioBatch, mkRow, List.filter, List.countP, List.countP.go]
  have hvq : (pre_outlier_batch outlierScenarioBatch).filterMap (fun x => x.total_venta) =
      [100, 105, 1000000] := by rw [hpre]; exact hv
  refine ⟨by rw [hvq]; exact hq1, by rw [hvq]; exact hq3, ?_, ?_⟩
  · rw [clean_data_eq]
    simp only
    rw [hpre, hro]
  · have hcd : (clean_data outlierScenarioBatch).1 =
        normalize_text (remove_outliers (pre_outlier_batch outlierScenarioBatch)).1 := rfl
    rw [hcd, hpre, hro]
    decide

/-! ## Rounding error bounds and group-sum lemmas (claim C3) -/

theorem abs_roundHalfEven_sub (x : ℚ) : |(roundHalfEven x : ℚ) - x| ≤ 1/2 := by
  have hfl : (⌊x⌋ : ℚ) ≤ x := Int.floor_le x
  have hfu : x < (⌊x⌋ : ℚ) + 1 := Int.lt_floor_add_one x
  unfold roundHalfEven
  by_cases h1 : x - (⌊x⌋ : ℚ) < 1/2
  · rw [if_pos h1, abs_le]
    constructor <;> linarith
  · rw [if_neg h1]
    by_cases h2 : (1:ℚ)/2 < x - (⌊x⌋ : ℚ)
    · rw [if_pos h2, abs_le]
      push_cast
      constructor <;> linarith
    · rw [if_neg h2]
      have h3 : x - (⌊x⌋ : ℚ) = 1/2 := le_antisymm (le_of_not_lt h2) (le_of_not_lt h1)
      by_cases h4 : ⌊x⌋ % 2 = 0
      · rw [if_pos h4, abs_le]
        constructor <;> linarith
      · rw [if_neg h4, abs_le]
        push_cast
        constructor <;> linarith

theorem abs_roundTo_sub (d : ℕ) (x : ℚ) : |roundTo d x - x| ≤ 1 / (2 * 10 ^ d) := by
  have hpos : (0 : ℚ) < 10 ^ d := by positivity
  have h := abs_roundHalfEven_sub (x * 10 ^ d)
  unfold roundTo
  have heq : (roundHalfEven (x * 10 ^ d) : ℚ) / 10 ^ d - x =
      ((roundHalfEven (x * 10 ^ d) : ℚ) - x * 10 ^ d) / 10 ^ d := by
    field_simp
    ring
  rw [heq, abs_div, abs_of_pos hpos, div_le_div_iff₀ hpos (by positivity)]
  calc |(roundHalfEven (x * 10 ^ d) : ℚ) - x * 10 ^ d| * (2 * 10 ^ d)
      ≤ (1/2) * (2 * 10 ^ d) := by
        apply mul_le_mul_of_nonneg_right h
        positivity
    _ = 1 * 10 ^ d := by ring

/-- Summing pointwise-close functions over a list keeps the sums within
`length * c`. -/
theorem abs_sum_sub_sum_le {β : Type} (ks : List β) (F G : β → ℚ) (c : ℚ)
    (h : ∀ k ∈ ks, |F k - G k| ≤ c) :
    |(ks.map F).sum - (ks.map G).sum| ≤ ks.length * c := by
  induction ks with
  | nil => simp
  | cons k ks ih =>
    have hk := h k (List.mem_cons_self _ _)
    have hks := ih (fun a ha => h a (List.mem_cons_of_mem _ ha))
    simp only [List.map_cons, List.sum_cons, List.length_cons]
    have step : F k + (ks.map F).sum - (G k + (ks.map G).sum) =
        (F k - G k) + ((ks.map F).sum - (ks.map G).sum) := by ring
    rw [step]
    calc |(F k - G k) + ((ks.map F).sum - (ks.map G).sum)|
        ≤ |F k - G k| + |(ks.map F).sum - (ks.map G).sum| := abs_add _ _
      _ ≤ c + ks.length * c := add_le_add hk hks
      _ = ((ks.length + 1 : ℕ) : ℚ) * c := by push_cast; ring

theorem sum_map_add {β : Type} (ks : List β) (F G : β → ℚ) :
    (ks.map (fun k => F k + G k)).sum = (ks.map F).sum + (ks.map G).sum := by
  induction ks with
  | nil => simp
  | cons a ks ih =>
    simp only [List.map_cons, List.sum_cons, ih]
    ring

theorem sum_ite_key {β : Type} [DecidableEq β] (ks : List β) (k0 : β) (c : ℚ)
    (hnd : ks.Nodup) (hk : k0 ∈ ks) :
    (ks.map (fun k => if k0 = k then c else 0)).sum = c := by
  induction ks with
  | nil => simp at hk
  | cons a ks ih =>
    rcases List.mem_cons.mp hk with h | h
    · subst h
      have hnot : k0 ∉ ks := (List.nodup_cons.mp hnd).1
      have hz : (ks.map (fun k => if k0 = k then c else 0)).sum = 0 := by
        apply List.sum_eq_zero
        intro x hx
        rcases List.mem_map.mp hx with ⟨b, hb, hbeq⟩
        have hne : k0 ≠ b := by
          intro hcon
          exact hnot (hcon.symm ▸ hb)
        rw [← hbeq, if_neg hne]
      simp only [List.map_cons, List.sum_cons, hz, add_zero]
      simp
    · have hne : k0 ≠ a := by
        intro hcon
        exact (List.nodup_cons.mp hnd).1 (hcon ▸ h)
      simp only [List.map_cons, List.sum_cons, if_neg hne]
      rw [ih (List.nodup_cons.mp hnd).2 h, zero_add]

/-- Splitting a sum over a list into sums over the fibers of a key
function, for any duplicate-free key list covering every element. -/
theorem sum_fibers {α β : Type} [DecidableEq β] (l : List α) (f : α → ℚ)
    (key : α → Option β) (ks : List β) (hnd : ks.Nodup)
    (hcov : ∀ a ∈ l, ∃ k ∈ ks, key a = some k) :
    (ks.map (fun k => ((l.filter (fun a => decide (key a = some k))).map f).sum)).sum
      = (l.map f).sum := by
  induction l with
  | nil => simp
  | cons a l ih =>
    have hcov2 : ∀ b ∈ l, ∃ k ∈ ks, key b = some k :=
      fun b hb => hcov b (List.mem_cons_of_mem _ hb)
    obtain ⟨k0, hk0, hkey⟩ := hcov a (List.mem_cons_self _ _)
    have hsplit : ∀ k ∈ ks,
        ((((a :: l).filter (fun x => decide (key x = some k))).map f).sum)
          = (if k0 = k then f a else 0) +
            (((l.filter (fun x => decide (key x = some k))).map f).sum) := by
      intro k _
      by_cases hk : key a = some k
      · have hkk : k0 = k := by
          rw [hkey] at hk
          exact Option.some.inj hk
        rw [List.filter_cons_of_pos (by simp [hk]), if_pos hkk]
        simp
      · rw [List.filter_cons_of_neg (by simp [hk]), if_neg ?_]
        · simp
        · intro hcon
          exact hk (hcon ▸ hkey)
    have hmapeq : (ks.map (fun k =>
        (((a :: l).filter (fun x => decide (key x = some k))).map f).sum)) =
        ks.map (fun k => (if k0 = k then f a else 0) +
          ((l.filter (fun x => decide (key x = some k))).map f).sum) :=
      List.map_congr_left hsplit
    rw [hmapeq, sum_map_add, sum_ite_key ks k0 (f a) hnd hk0, ih hcov2]
    simp

theorem mem_dedupKeysAux :
    ∀ (ks seen : List (String × String × String × String)) (k),
      k ∈ dedupKeysAux seen ks → k ∈ ks ∧ k ∉ seen := by
  intro ks
  induction ks with
  | nil => intro seen k h; simp [dedupKeysAux] at h
  | cons a ks ih =>
    intro seen k h
    simp only [dedupKeysAux] at h
    split at h
    · have := ih seen k h
      exact ⟨List.mem_cons_of_mem _ this.1, this.2⟩
    · rcases List.mem_cons.mp h with h2 | h2
      · subst h2
        exact ⟨List.mem_cons_self _ _, by assumption⟩
      · have := ih (a :: seen) k h2
        exact ⟨List.mem_cons_of_mem _ this.1,
          fun hc => this.2 (List.mem_cons_of_mem _ hc)⟩

theorem dedupKeysAux_nodup :
    ∀ (ks seen : List (String × String × String × String)),
      (dedupKeysAux seen ks).Nodup := by
  intro ks
  induction ks with
  | nil => intro seen; simp [dedupKeysAux]
  | cons a ks ih =>
    intro seen
    simp only [dedupKeysAux]
    split
    · exact ih seen
    · refine List.nodup_cons.mpr ⟨?_, ih (a :: seen)⟩
      intro hc
      exact (mem_dedupKeysAux ks (a :: seen) a hc).2 (List.mem_cons_self _ _)

theorem mem_dedupKeysAux_of_mem :
    ∀ (ks seen : List (String × String × String × String)) (k),
      k ∈ ks → k ∈ dedupKeysAux seen ks ∨ k ∈ seen := by
  intro ks
  induction ks with
  | nil => intro seen k h; simp at h
  | cons a ks ih =>
    intro seen k h
    simp only [dedupKeysAux]
    rcases List.mem_cons.mp h with h2 | h2
    · subst h2
      split
      · right; assumption
      · left; exact List.mem_cons_self _ _
    · split
      · exact ih seen k h2
      · rcases ih (a :: seen) k h2 with h3 | h3
        · left; exact List.mem_cons_of_mem _ h3
        · rcases List.mem_cons.mp h3 with h4 | h4
          · subst h4; left; exact List.mem_cons_self _ _
          · right; assumption

theorem batchKeys_nodup (l : List RawRow) : (batchKeys l).Nodup :=
  dedupKeysAux_nodup _ _

theorem batchKeys_cover (l : List RawRow) (r : RawRow) (hr : r ∈ l)
    (k : String × String × String × String) (hk : keyOf r = some k) :
    k ∈ batchKeys l := by
  have hmem : k ∈ l.filterMap keyOf := List.mem_filterMap.mpr ⟨r, hr, hk⟩
  rcases mem_dedupKeysAux_of_mem (l.filterMap keyOf) [] k hmem with h | h
  · exact h
  · simp at h

theorem filterMap_total_eq_map_getD (m : List RawRow) :
    (m.filterMap (fun r => r.total_venta)).sum =
      (m.map (fun r => r.total_venta.getD 0)).sum := by
  induction m with
  | nil => rfl
  | cons r rs ih =>
    cases hv : r.total_venta with
    | none => simp [List.filterMap_cons, hv, ih]
    | some v => simp [List.filterMap_cons, hv, ih]

/-- C3 (amended): the aggregated `total_venta` sum is within
`0.01 * num_groups` of the cleaned-batch `total_venta` sum for every
batch whose rows all have a non-null group key
`(fecha, producto, categoria, region)`.  (The unrestricted claim is
refuted by `c3_counterexample`: pandas `groupby` silently drops rows
with a null key component, losing their `total_venta` entirely.) -/
theorem aggregate_sum_preservation (l : List RawRow)
    (h : ∀ r ∈ l, (keyOf r).isSome) :
    |((aggregate_data l).map (fun g => g.total_venta)).sum -
      (l.filterMap (fun r => r.total_venta)).sum| ≤
      (1/100) * ((aggregate_data l).length : ℚ) := by
  have hnd : (batchKeys l).Nodup := batchKeys_nodup l
  have hcov : ∀ r ∈ l, ∃ k ∈ batchKeys l, keyOf r = some k := by
    intro r hr
    rcases Option.isSome_iff_exists.mp (h r hr) with ⟨k, hk⟩
    exact ⟨k, batchKeys_cover l r hr k hk, hk⟩
  have hagg : (aggregate_data l).map (fun g => g.total_venta) =
      (batchKeys l).map (fun k =>
        roundTo 2 (((l.filter (fun r => decide (keyOf r = some k))).map
          (fun r => r.total_venta.getD 0)).sum)) := by
    unfold aggregate_data
    rw [List.map_map]
    apply List.map_congr_left
    intro k _
    show (mkAggRow l k).total_venta = _
    unfold mkAggRow groupRows
    simp only
    rw [filterMap_total_eq_map_getD]
  have hsum : ((batchKeys l).map (fun k =>
      ((l.filter (fun r => decide (keyOf r = some k))).map
        (fun r => r.total_venta.getD 0)).sum)).sum =
      (l.map (fun r => r.total_venta.getD 0)).sum :=
    sum_fibers l (fun r => r.total_venta.getD 0) keyOf (batchKeys l) hnd hcov
  have hlen : ((aggregate_data l).length : ℚ) = ((batchKeys l).length : ℚ) := by
    unfold aggregate_data
    rw [List.length_map]
  rw [hagg, hlen, filterMap_total_eq_map_getD, ← hsum]
  have hbound := abs_sum_sub_sum_le (batchKeys l)
    (fun k => roundTo 2 (((l.filter (fun r => decide (keyOf r = some k))).map
      (fun r => r.total_venta.getD 0)).sum))
    (fun k => ((l.filter (fun r => decide (keyOf r = some k))).map
      (fun r => r.total_venta.getD 0)).sum)
    (1/200)
    (by
      intro k _
      have := abs_roundTo_sub 2
        (((l.filter (fun r => decide (keyOf r = some k))).map
          (fun r => r.total_venta.getD 0)).sum)
      norm_num at this ⊢
      exact this)
  calc |((batchKeys l).map _).sum - ((batchKeys l).map _).sum|
      ≤ ((batchKeys l).length : ℚ) * (1/200) := hbound
    _ ≤ (1/100) * ((batchKeys l).length : ℚ) := by
        rw [mul_comm]
        apply mul_le_mul_of_nonneg_right (by norm_num)
        positivity

/-- C3, counterexample: a cleaned batch with one row whose `categoria`
is null produces zero groups, so the aggregated sum is 0 while the
cleaned sum is 100 and the allowed tolerance is 0. -/
theorem c3_sum_preservation_counterexample :
    ¬ (|((aggregate_data [nullCatRow]).map (fun g => g.total_venta)).sum -
        (([nullCatRow] : List RawRow).filterMap (fun r => r.total_venta)).sum| ≤
        (1/100) * ((aggregate_data [nullCatRow]).length : ℚ)) := by
  have h1 : aggregate_data [nullCatRow] = [] := rfl
  have h2 : ([nullCatRow] : List RawRow).filterMap (fun r => r.total_venta) = [100] := by
    decide
  rw [h1, h2]
  norm_num

/-- C3, witness: the amended preservation bound applied to a concrete
one-row batch with a fully-populated key. -/
theorem aggregate_sum_preservation_witness :
    (∀ r ∈ [mkRow 1 (some 100)], (keyOf r).isSome) ∧
    |((aggregate_data [mkRow 1 (some 100)]).map (fun g => g.total_venta)).sum -
      (([mkRow 1 (some 100)] : List RawRow).filterMap (fun r => r.total_venta)).sum| ≤
      (1/100) * ((aggregate_data [mkRow 1 (some 100)]).length : ℚ) := by
  have hs : ∀ r ∈ [mkRow 1 (some 100)], (keyOf r).isSome := by decide
  exact ⟨hs, aggregate_sum_preservation _ hs⟩

/-! ## `num_transacciones` counts non-null ids (claim C10) -/

/-- C10 (amended): every aggregated row's `num_transacciones` equals the
number of rows of its group whose `id` is non-null — not the group's row
count: `'id': 'count'` skips nulls (see `c10_counterexample`). -/
theorem aggregate_num_transacciones (l : List RawRow) (g : AggRow)
    (hg : g ∈ aggregate_data l) :
    g.num_transacciones =
      l.countP (fun r => r.id.isSome &&
        decide (keyOf r = some (g.fecha, g.producto, g.categoria, g.region))) := by
  rcases List.mem_map.mp hg with ⟨k, _, hmk⟩
  obtain ⟨a, b, c, d⟩ := k
  subst hmk
  show (mkAggRow l (a, b, c, d)).num_transacciones = _
  unfold mkAggRow groupRows
  simp only
  rw [List.countP_filter]

/-- C10, counterexample: in a group of two rows, one with a null `id`,
the aggregator reports `num_transacciones = 1` while the group's row
count is 2. -/
theorem c10_num_transacciones_counterexample :
    (aggregate_data nullIdBatch).map (fun g => g.num_transacciones) = [1] ∧
    nullIdBatch.countP
      (fun r => decide (keyOf r = some ("2024-01-01", "A", "B", "C"))) = 2 := by
  constructor
  · decide
  · decide

/-- C10, witness: the amended count equation on a concrete singleton
batch. -/
theorem aggregate_num_transacciones_witness :
    mkAggRow [mkRow 1 (some 100)] ("2024-01-01", "A", "B", "C") ∈
      aggregate_data [mkRow 1 (some 100)] ∧
    (mkAggRow [mkRow 1 (some 100)] ("2024-01-01", "A", "B", "C")).num_transacciones =
      [mkRow 1 (some 100)].countP (fun r => r.id.isSome &&
        decide (keyOf r = some
          ((mkAggRow [mkRow 1 (some 100)] ("2024-01-01", "A", "B", "C")).fecha,
           (mkAggRow [mkRow 1 (some 100)] ("2024-01-01", "A", "B", "C")).producto,
           (mkAggRow [mkRow 1 (some 100)] ("2024-01-01", "A", "B", "C")).categoria,
           (mkAggRow [mkRow 1 (some 100)] ("2024-01-01", "A", "B", "C")).region))) := by
  have hm : mkAggRow [mkRow 1 (some 100)] ("2024-01-01", "A", "B", "C") ∈
      aggregate_data [mkRow 1 (some 100)] :=
    show _ ∈ [mkAggRow [mkRow 1 (some 100)] ("2024-01-01", "A", "B", "C")] from
      List.mem_singleton.mpr rfl
  exact ⟨hm, aggregate_num_transacciones _ _ hm⟩

/-! ## Row-count preservation through `prepare_data_for_load` (claim C4) -/

theorem mapOption_length {α β : Type} (f : α → Option β) :
    ∀ (l : List α) (l2 : List β), mapOption f l = some l2 → l2.length = l.length := by
  intro l
  induction l with
  | nil =>
    intro l2 h
    cases h
    rfl
  | cons a as ih =>
    intro l2 h
    simp only [mapOption] at h
    cases hfa : f a with
    | none => rw [hfa] at h; simp at h
    | some b =>
      rw [hfa] at h
      cases hrest : mapOption f as with
      | none => rw [hrest] at h; simp at h
      | some bs =>
        rw [hrest] at h
        have h2 : b :: bs = l2 := by simpa using h
        rw [← h2]
        simp [ih bs hrest]

theorem getCol_length (df : DF) (c : String) (vs : List Value)
    (h : getCol df c = some vs) : vs.length = df.rows.length := by
  unfold getCol at h
  cases hi : idxOf c df.cols with
  | none => rw [hi] at h; simp at h
  | some i =>
    rw [hi] at h
    have h2 : df.rows.map (fun r => r.getD i Value.null) = vs := by simpa using h
    rw [← h2, List.length_map]

theorem setCol_rows_length (df : DF) (c : String) (vs : List Value)
    (h : vs.length = df.rows.length) :
    (setCol df c vs).rows.length = df.rows.length := by
  unfold setCol
  cases hi : idxOf c df.cols with
  | none => rfl
  | some i =>
    simp only [List.length_map, List.length_zip, h, min_self]

theorem coerceCols_rows_length :
    ∀ (cs : List String) (df : DF), (coerceCols cs df).rows.length = df.rows.length := by
  intro cs
  induction cs with
  | nil => intro df; rfl
  | cons c cs ih =>
    intro df
    simp only [coerceCols]
    cases hg : getCol df c with
    | none => exact ih df
    | some vs =>
      rw [ih (setCol df c (vs.map coerceNumVal))]
      exact setCol_rows_length df c _ (by rw [List.length_map]; exact getCol_length df c vs hg)

theorem dropCol_rows_length (df : DF) (c : String) :
    (dropCol df c).rows.length = df.rows.length := by
  unfold dropCol
  cases idxOf c df.cols with
  | none => rfl
  | some i => exact List.length_map _ _

theorem insertRowBy_length (le : List Value → List Value → Bool) (r : List Value) :
    ∀ rs, (insertRowBy le r rs).length = rs.length + 1 := by
  intro rs
  induction rs with
  | nil => rfl
  | cons x xs ih =>
    simp only [insertRowBy]
    split
    · simp
    · simp [ih]

theorem sortRowsBy_length (le : List Value → List Value → Bool) (rs : List (List Value)) :
    (sortRowsBy le rs).length = rs.length := by
  induction rs with
  | nil => rfl
  | cons r rs ih =>
    simp only [sortRowsBy, List.foldr] at ih ⊢
    rw [insertRowBy_length, ih]
    rfl

theorem prepare_rows_length (df dfp : DF) (h : prepare_data_for_load df = some dfp) :
    dfp.rows.length = df.rows.length := by
  unfold prepare_data_for_load at h
  have hstep : ∀ (df1 df3 : DF), df1.rows.length = df.rows.length →
      sortRowsByCol (dropCol (dropCol (coerceCols numericPrepCols df1) "Unnamed: 0") "index")
        "fecha" = some df3 → df3.rows.length = df.rows.length := by
    intro df1 df3 h1 hsort
    unfold sortRowsByCol at hsort
    cases hi : idxOf "fecha"
        (dropCol (dropCol (coerceCols numericPrepCols df1) "Unnamed: 0") "index").cols with
    | none => rw [hi] at hsort; simp at hsort
    | some i =>
      rw [hi] at hsort
      simp only [Option.some.injEq] at hsort
      rw [← hsort]
      rw [sortRowsBy_length, dropCol_rows_length, dropCol_rows_length,
        coerceCols_rows_length, h1]
  by_cases hc : df.cols.contains "fecha" = true
  · rw [if_pos hc] at h
    cases hg : getCol df "fecha" with
    | none =>
      simp only [hg] at h
      exact hstep df dfp rfl h
    | some vs =>
      simp only [hg] at h
      cases hmo : mapOption toDatetimeVal vs with
      | none => simp only [hmo] at h; exact absurd h (by simp)
      | some vs2 =>
        simp only [hmo] at h
        refine hstep (setCol df "fecha" (vs2.map strftimeVal)) dfp ?_ h
        apply setCol_rows_length
        rw [List.length_map, mapOption_length toDatetimeVal vs vs2 hmo]
        exact getCol_length df "fecha" vs hg
  · rw [if_neg hc] at h
    exact hstep df dfp rfl h

/-- C4 (confirmed): replace-mode loading is idempotent at table-content
level — running the load twice on the same validated batch leaves the
target table with exactly the batch's row count and identical contents
after each run. -/
theorem load_replace_idempotent (df : DF) (s : Store) (ts1 ts2 : String) (dfp : DF)
    (hv : validate_data_before_load df = .ok true)
    (hp : prepare_data_for_load df = some dfp) :
    (load df ts1 s).1 tableTarget = some dfp.rows ∧
    (load df ts2 (load df ts1 s).1).1 tableTarget = some dfp.rows ∧
    (load df ts1 s).2 = .ok dfp.rows.length ∧
    (load df ts2 (load df ts1 s).1).2 = .ok dfp.rows.length ∧
    dfp.rows.length = df.rows.length := by
  have hload : ∀ (ts : String) (s0 : Store), load df ts s0 =
      (storeSet (backup_existing_data tableTarget ts s0) tableTarget dfp.rows,
        .ok dfp.rows.length) := by
    intro ts s0
    simp only [load, hv, hp, load_to_database]
  have htgt : ∀ (ts : String) (s0 : Store),
      (storeSet (backup_existing_data tableTarget ts s0) tableTarget dfp.rows) tableTarget =
        some dfp.rows := by
    intro ts s0
    unfold storeSet
    rw [if_pos rfl]
  have h1 := hload ts1 s
  have h2 := hload ts2 ((load df ts1 s).1)
  refine ⟨?_, ?_, ?_, ?_, prepare_rows_length df dfp hp⟩
  · rw [h1]; exact htgt ts1 s
  · rw [h2]; exact htgt ts2 ((load df ts1 s).1)
  · rw [h1]
  · rw [h2]

/-- C4, witness: the idempotent-replace theorem evaluated on a concrete
valid batch against the empty store. -/
theorem load_replace_idempotent_witness :
    validate_data_before_load aggBatchOk = .ok true ∧
    prepare_data_for_load aggBatchOk = some aggBatchOk ∧
    ((load aggBatchOk "20240101_000000" emptyStore).1 tableTarget = some aggBatchOk.rows ∧
     (load aggBatchOk "20240102_000000"
        (load aggBatchOk "20240101_000000" emptyStore).1).1 tableTarget = some aggBatchOk.rows ∧
     (load aggBatchOk "20240101_000000" emptyStore).2 = .ok aggBatchOk.rows.length ∧
     (load aggBatchOk "20240102_000000"
        (load aggBatchOk "20240101_000000" emptyStore).1).2 = .ok aggBatchOk.rows.length ∧
     aggBatchOk.rows.length = aggBatchOk.rows.length) :=
  ⟨by rfl, by rfl,
    load_replace_idempotent aggBatchOk emptyStore "20240101_000000" "20240102_000000"
      aggBatchOk (by rfl) (by rfl)⟩

/-! ## Validation rejects without writing (claim C5) -/

/-- C5 (confirmed): an empty batch and a batch missing `producto` make
`extract` raise with the checkpoint artifact untouched, and an empty
batch, a batch missing `producto` (an uncaught `KeyError` from the
critical-column check) and a batch with `cantidad_total = -5` make
`load` raise with the store untouched — no write happens before any of
the raises. -/
theorem validation_rejects_without_write :
    ∀ (art : Option DF) (s : Store) (ts : String),
      extract emptyExtractBatch art = (art, .error ()) ∧
      extract noProductoExtractBatch art = (art, .error ()) ∧
      load emptyLoadBatch ts s = (s, .error .validationFailed) ∧
      load noProductoLoadBatch ts s = (s, .error .keyError) ∧
      load negQtyLoadBatch ts s = (s, .error .validationFailed) := by
  intro art s ts
  exact ⟨rfl, rfl, rfl, rfl, rfl⟩

/-! ## Negativity gate at load (claim C7) -/

/-- C7 (amended): whenever one of the four columns the negativity check
actually scans (`cantidad_total`, `precio_promedio`, `total_venta`,
`num_transacciones`) contains a negative value, `load` raises without
touching the store.  (`descuento_promedio` is NOT scanned — see
`c7_counterexample`.) -/
theorem load_rejects_negative_checked (df : DF) (ts : String) (s : Store)
    (h : ∃ c ∈ numericLoadCols, ((getCol df c).getD []).any isNegValue = true) :
    (load df ts s).1 = s ∧ ∃ e, (load df ts s).2 = .error e := by
  rcases h with ⟨c, hc, hneg⟩
  have hgc : ∃ vs, getCol df c = some vs ∧ vs.any isNegValue = true := by
    cases hg : getCol df c with
    | none => rw [hg] at hneg; simp at hneg
    | some vs => refine ⟨vs, rfl, ?_⟩; rw [hg] at hneg; exact hneg
  rcases hgc with ⟨vs, hgc, hany⟩
  have hval : validate_data_before_load df = .error () ∨
      validate_data_before_load df = .ok false := by
    unfold validate_data_before_load
    by_cases hemp : df.rows.isEmpty = true
    · right; rw [if_pos hemp]
    · rw [if_neg hemp]
      cases hcrit : criticalLoadCols.mapM (getCol df) with
      | none => simp only [hcrit]; left; trivial
      | some critVals =>
        cases hdup : dupSubsetCols.mapM (getCol df) with
        | none => simp only [hcrit, hdup]; left; trivial
        | some dupVals =>
          simp only [hcrit, hdup]
          right
          have hmem : (!vs.any isNegValue) ∈ numericLoadCols.filterMap
              (fun c2 => (getCol df c2).map (fun vs2 => !vs2.any isNegValue)) :=
            List.mem_filterMap.mpr ⟨c, hc, by rw [hgc]; rfl⟩
          have hfalse : (numericLoadCols.filterMap
              (fun c2 => (getCol df c2).map (fun vs2 => !vs2.any isNegValue))).all
              (fun b => b) = false := by
            apply List.all_eq_false.mpr
            refine ⟨!vs.any isNegValue, hmem, ?_⟩
            rw [hany]
            simp
          rw [hfalse]
          simp
  rcases hval with hval | hval
  · unfold load
    rw [hval]
    exact ⟨rfl, .keyError, rfl⟩
  · unfold load
    rw [hval]
    exact ⟨rfl, .validationFailed, rfl⟩

/-- C7, witness: the negativity gate fires on a concrete batch with a
negative `precio_promedio`. -/
theorem load_rejects_negative_checked_witness :
    (∃ c ∈ numericLoadCols,
      ((getCol negPrecioLoadBatch c).getD []).any isNegValue = true) ∧
    ((load negPrecioLoadBatch "20240101_000000" emptyStore).1 = emptyStore ∧
      ∃ e, (load negPrecioLoadBatch "20240101_000000" emptyStore).2 = .error e) :=
  ⟨by decide,
    load_rejects_negative_checked negPrecioLoadBatch "20240101_000000" emptyStore
      (by decide)⟩

/-- C7, counterexample: a batch whose `descuento_promedio` is negative
passes pre-load validation and is written to the target table — the
negativity check never scans `descuento_promedio`. -/
theorem c7_negative_descuento_counterexample :
    validate_data_before_load negDescLoadBatch = .ok true ∧
    (load negDescLoadBatch "20240101_000000" emptyStore).2 = .ok 1 := by
  exact ⟨by rfl, by rfl⟩

/-! ## The numeric-coercibility check can never fail (claim C8) -/

theorem numericChecks_all_true :
    ∀ (cs : List String) (df : DF), ((numericChecks cs df).1).all (fun b => b) = true := by
  intro cs
  induction cs with
  | nil => intro df; rfl
  | cons c cs ih =>
    intro df
    simp only [numericChecks]
    split
    · split
      · split
        · exact ih df
        · simp only [List.all_cons, Bool.true_and]
          exact ih _
      · exact ih df
    · exact ih df

/-- C8 (amended): the entries appended by check 4 of
`validate_extracted_data` (the numeric-coercibility step, positions 3
onward of the recorded check list) are always `true`: coercion with
`errors='coerce'` never raises and never records a failure — a batch
with non-coercible values in a declared numeric column has those cells
silently replaced by nulls and the check recorded as passed.  (The
original claim — that such a batch fails validation — is refuted at a
concrete batch by `c8_counterexample`.) -/
theorem numeric_coercion_check_never_fails (df : DF) :
    ((validate_extracted_data df).1.drop 3).all (fun b => b) = true := by
  simp only [validate_extracted_data, List.cons_append, List.nil_append,
    List.drop_succ_cons, List.drop_zero]
  exact numericChecks_all_true numericExtractCols _

/-- C8, counterexample: the batch with the non-coercible `cantidad`
value passes overall extraction validation (the claim says the check is
recorded as failed and validation fails), and the offending cell is
silently coerced to null in the batch the validator hands back. -/
theorem c8_non_coercible_counterexample :
    extractValid nonCoercibleBatch = true ∧
    getCol (validate_extracted_data nonCoercibleBatch).2 "cantidad" = some [Value.null] := by
  exact ⟨by rfl, by rfl⟩

/-! ## Validator mutation of the batch (claim C9) -/

theorem idxOf_lt_length :
    ∀ (cols : List String) (c : String) (i : ℕ), idxOf c cols = some i → i < cols.length := by
  intro cols
  induction cols with
  | nil => intro c i h; simp [idxOf] at h
  | cons c2 cs ih =>
    intro c i h
    simp only [idxOf] at h
    split at h
    · cases h
      simp
    · cases hj : idxOf c cs with
      | none => rw [hj] at h; simp at h
      | some j =>
        rw [hj] at h
        have h2 : j + 1 = i := by simpa using h
        have := ih c j hj
        simp only [List.length_cons]
        omega

theorem set_getD_self {α : Type} :
    ∀ (r : List α) (i : ℕ) (d : α), i < r.length → r.set i (r.getD i d) = r := by
  intro r
  induction r with
  | nil => intro i d h; simp at h
  | cons x xs ih =>
    intro i d h
    cases i with
    | zero => rfl
    | succ j =>
      simp only [List.getD_cons_succ, List.set_cons_succ]
      rw [ih j d (by simpa using h)]

theorem zip_map_self {α β : Type} (f : α → β) :
    ∀ (l : List α), l.zip (l.map f) = l.map (fun a => (a, f a)) := by
  intro l
  induction l with
  | nil => rfl
  | cons x xs ih => simp only [List.map_cons, List.zip_cons_cons, ih]

/-- Writing a column's own values back is the identity on well-formed
frames. -/
theorem setCol_self (df : DF) (c : String) (vs : List Value)
    (hwf : ∀ r ∈ df.rows, r.length = df.cols.length)
    (hg : getCol df c = some vs) : setCol df c vs = df := by
  unfold getCol at hg
  cases hi : idxOf c df.cols with
  | none => rw [hi] at hg; simp at hg
  | some i =>
    rw [hi] at hg
    have hvs : df.rows.map (fun r => r.getD i Value.null) = vs := by simpa using hg
    unfold setCol
    rw [hi]
    have hrows : (df.rows.zip vs).map (fun p => p.1.set i p.2) = df.rows := by
      rw [← hvs, zip_map_self, List.map_map]
      have hid : ∀ r ∈ df.rows, r.set i (r.getD i Value.null) = r := by
        intro r hr
        apply set_getD_self
        rw [hwf r hr]
        exact idxOf_lt_length df.cols c i hi
      calc df.rows.map ((fun p : List Value × Value => p.1.set i p.2) ∘
            (fun r => (r, r.getD i Value.null)))
          = df.rows.map (fun r => r.set i (r.getD i Value.null)) := rfl
        _ = df.rows.map id := List.map_congr_left (fun r hr => hid r hr)
        _ = df.rows := List.map_id _
    cases df
    simp only at hrows
    simp [hrows]

theorem mapOption_self {α : Type} (f : α → Option α) :
    ∀ (l : List α), (∀ a ∈ l, f a = some a) → mapOption f l = some l := by
  intro l
  induction l with
  | nil => intro _; rfl
  | cons a as ih =>
    intro h
    simp only [mapOption, h a (List.mem_cons_self _ _),
      ih (fun b hb => h b (List.mem_cons_of_mem _ hb))]
    rfl

theorem numericChecks_snd_id :
    ∀ (cs : List String) (df : DF),
      (∀ c ∈ cs, isNumericDtype ((getCol df c).getD []) = true) →
      (numericChecks cs df).2 = df := by
  intro cs
  induction cs with
  | nil => intro df _; rfl
  | cons c cs ih =>
    intro df h
    simp only [numericChecks]
    split
    · split
      · rename_i vs hg
        have hnum : isNumericDtype vs = true := by
          have h2 := h c (List.mem_cons_self _ _)
          rw [hg] at h2
          exact h2
        rw [if_pos hnum]
        exact ih df (fun c2 hc2 => h c2 (List.mem_cons_of_mem _ hc2))
      · exact ih df (fun c2 hc2 => h c2 (List.mem_cons_of_mem _ hc2))
    · exact ih df (fun c2 hc2 => h c2 (List.mem_cons_of_mem _ hc2))

/-- C9 (amended): the validators leave a batch unchanged only on
already-typed input — when every `fecha` cell is already a datetime (or
null) and every declared numeric column already has numeric dtype, the
extraction-side validator returns the batch as-is.  (On string-typed
input it mutates the batch in place — `c9_counterexample` exhibits the
mutation, refuting the claim that validation never mutates; the
load-side validator computes its verdict without any assignment to the
frame, which the embedding `validate_data_before_load` reflects by
returning only the verdict.) -/
theorem validate_extracted_no_mutation_on_typed (df : DF)
    (hwf : ∀ r ∈ df.rows, r.length = df.cols.length)
    (hf : ∀ v ∈ (getCol df "fecha").getD [], toDatetimeVal v = some v)
    (hn : ∀ c ∈ numericExtractCols, isNumericDtype ((getCol df c).getD []) = true) :
    (validate_extracted_data df).2 = df := by
  simp only [validate_extracted_data]
  cases hg : getCol df "fecha" with
  | none =>
    simp only
    exact numericChecks_snd_id numericExtractCols df hn
  | some vs =>
    have hself : mapOption toDatetimeVal vs = some vs := by
      apply mapOption_self
      intro v hv
      apply hf
      rw [hg]
      exact hv
    simp only [hself, setCol_self df "fecha" vs hwf hg]
    exact numericChecks_snd_id numericExtractCols df hn

/-- C9, witness: the no-mutation-on-typed-input theorem evaluated on a
concrete already-typed batch. -/
theorem validate_extracted_no_mutation_on_typed_witness :
    ((∀ r ∈ typedExtractBatch.rows, r.length = typedExtractBatch.cols.length) ∧
     (∀ v ∈ (getCol typedExtractBatch "fecha").getD [], toDatetimeVal v = some v) ∧
     (∀ c ∈ numericExtractCols,
       isNumericDtype ((getCol typedExtractBatch c).getD []) = true)) ∧
    (validate_extracted_data typedExtractBatch).2 = typedExtractBatch := by
  refine ⟨⟨by decide, by decide, by decide⟩, ?_⟩
  exact validate_extracted_no_mutation_on_typed typedExtractBatch
    (by decide) (by decide) (by decide)

/-- C9, counterexample: on a batch whose `fecha` is string-typed, the
extraction-side validator hands back a *different* batch — it converted
the column in place, so validation is not mutation-free. -/
theorem c9_validator_mutates_counterexample :
    (validate_extracted_data strFechaBatch).2 ≠ strFechaBatch := by
  decide

end ETL
